import Mathlib

/-!
Verification of the UserService back-end (src/node/index.js) of the
dockerize-react-node-postgres-nginx application.

The service exposes three HTTP endpoints:
  GET  /api       -> "Hello World!"
  GET  /api/all   -> SELECT * FROM users
  POST /api/form  -> INSERT INTO users(name, email, age)
                     VALUES (interpolated name, email, age)

The insert statement is built by direct string interpolation of the
request-body fields into the SQL text (index.js line 51), with no
escaping or parameter binding.  The store is PostgreSQL with the table

  users(id serial PRIMARY KEY,
        name  VARCHAR(255) UNIQUE NOT NULL,
        email VARCHAR(255) UNIQUE NOT NULL,
        age   INT NOT NULL)

The development models the query-text construction exactly as the code
builds it, a lexer for the store front end (statement splitting with
single-quoted-string and double-dash-comment awareness, as in the
simple query protocol, where several semicolon-separated statements run
in one implicit transaction), a structural parser for the SQL fragment
the service can emit, and the table semantics (uniqueness of name and
email, 32-bit INT age).
-/

namespace UserService

/-- The single-quote character, written by code so that SQL text can be
assembled without raw quote characters in the file. -/
def sq : Char := '\x27'

/-- A persisted row of the users table: id is assigned by the store. -/
structure Row where
  id : Nat
  name : String
  email : String
  age : Int
deriving DecidableEq

/-- The store state: whether the users table exists, its rows in
insertion order, and the next value of the id sequence. -/
structure DBState where
  tableExists : Bool
  rows : List Row
  nextId : Nat
deriving DecidableEq

/-- A JavaScript value as it can appear in a request-body field:
a string, an integral JSON number, or absent (undefined). -/
inductive JsVal where
  | str (s : String)
  | num (n : Int)
  | undef
deriving DecidableEq

/-- Text produced when a request-body field is spliced into a template
literal: strings verbatim, numbers in decimal, undefined as the text
"undefined" (JavaScript string interpolation). -/
def JsVal.interp : JsVal → String
  | .str s => s
  | .num n => toString n
  | .undef => "undefined"

/-- The request body of POST /api/form: req.body.name, req.body.email,
req.body.age (index.js lines 47-49). -/
structure ReqBody where
  name : JsVal
  email : JsVal
  age : JsVal
deriving DecidableEq

/-! ### Query texts as the service builds them -/

/-- index.js line 51: the insert statement assembled by template-literal
interpolation, with name and email between single quotes and age bare. -/
def insertQueryText (name email age : String) : String :=
  "INSERT INTO users(name, email, age) VALUES (\x27" ++ name ++
    "\x27, \x27" ++ email ++ "\x27, " ++ age ++ ");"

/-- index.js line 33: the list-users query. -/
def selectAllText : String := "SELECT * FROM users"

/-- index.js lines 18-20: the idempotent schema-creation statement. -/
def createTableText : String :=
  "CREATE TABLE IF NOT EXISTS users \n    (id serial PRIMARY KEY, name VARCHAR (255) UNIQUE NOT NULL, \n    email VARCHAR (255) UNIQUE NOT NULL, age INT NOT NULL);"

/-! ### Statement splitting (the store front end lexer)

PostgreSQL splits a simple-protocol query string into semicolon-
separated statements, where semicolons inside single-quoted string
literals are text, a doubled quote inside a literal is an escaped
quote, and a double dash outside a literal starts a comment running to
end of line.  The splitter is a character fold with an explicit mode. -/

inductive LexMode where
  | normal | instr | quoteSeen | dashSeen | comment
deriving DecidableEq

structure SplitState where
  mode : LexMode
  cur : List Char
  acc : List (List Char)
deriving DecidableEq

/-- One lexer step in normal mode (outside string literals and
comments): a semicolon ends the current statement, a quote opens a
string literal, a dash may start a comment (decided on the next
character), anything else is statement text. -/
def stepNormal (s : SplitState) (c : Char) : SplitState :=
  if c = ';' then ⟨.normal, [], s.acc ++ [s.cur]⟩
  else if c = sq then ⟨.instr, s.cur ++ [c], s.acc⟩
  else if c = '-' then ⟨.dashSeen, s.cur, s.acc⟩
  else ⟨.normal, s.cur ++ [c], s.acc⟩

/-- One lexer step.  In a string literal every character is text and a
quote either closes the literal or, if doubled, stands for an escaped
quote (mode quoteSeen decides on the next character).  After a lone
dash, a second dash starts a comment, which runs to end of line. -/
def step (s : SplitState) (c : Char) : SplitState :=
  match s.mode with
  | .normal => stepNormal s c
  | .instr =>
      if c = sq then ⟨.quoteSeen, s.cur ++ [c], s.acc⟩
      else ⟨.instr, s.cur ++ [c], s.acc⟩
  | .quoteSeen =>
      if c = sq then ⟨.instr, s.cur ++ [c], s.acc⟩
      else stepNormal ⟨.normal, s.cur, s.acc⟩ c
  | .dashSeen =>
      if c = '-' then ⟨.comment, s.cur, s.acc⟩
      else stepNormal ⟨.normal, s.cur ++ ['-'], s.acc⟩ c
  | .comment =>
      if c = '\n' then ⟨.normal, s.cur, s.acc⟩
      else ⟨.comment, s.cur, s.acc⟩

/-- End of input: an unterminated string literal is a lexical error;
otherwise the pending text is the final statement. -/
def finish (s : SplitState) : Option (List (List Char)) :=
  match s.mode with
  | .instr => none
  | .dashSeen => some (s.acc ++ [s.cur ++ ['-']])
  | _ => some (s.acc ++ [s.cur])

/-- Split a query string into its semicolon-separated statements. -/
def splitStatements (q : String) : Option (List (List Char)) :=
  finish (q.data.foldl step ⟨.normal, [], []⟩)

/-! ### Parsing one statement -/

def isWs (c : Char) : Bool := c = ' ' || c = '\n' || c = '\t' || c = '\r'

/-- Strip leading and trailing whitespace. -/
def trimChars (l : List Char) : List Char :=
  ((l.dropWhile isWs).reverse.dropWhile isWs).reverse

/-- Read a single-quoted string literal given the text after the
opening quote: returns the content (doubled quotes unescaped) and the
text after the closing quote. -/
def readQuoted : List Char → Option (List Char × List Char)
  | [] => none
  | c :: rest =>
    if c = sq then
      match rest with
      | c2 :: rest2 =>
        if c2 = sq then
          match readQuoted rest2 with
          | some (v, r) => some (sq :: v, r)
          | none => none
        else some ([], rest)
      | [] => some ([], [])
    else
      match readQuoted rest with
      | some (v, r) => some (c :: v, r)
      | none => none

/-- Expect a comma, allowing leading whitespace. -/
def expectComma (l : List Char) : Option (List Char) :=
  match l.dropWhile isWs with
  | c :: rest => if c = ',' then some rest else none
  | [] => none

/-- Split at the first closing parenthesis. -/
def splitAtRParen : List Char → Option (List Char × List Char)
  | [] => none
  | c :: rest =>
    if c = ')' then some ([], rest)
    else
      match splitAtRParen rest with
      | some (t, r) => some (c :: t, r)
      | none => none

def digVal (c : Char) : Nat := c.toNat - 48

/-- Decimal value of a digit list. -/
def digitsToNat (l : List Char) : Nat :=
  l.foldl (fun a c => a * 10 + digVal c) 0

/-- A nonempty all-digit token denotes a natural number. -/
def parseNatDigits (l : List Char) : Option Nat :=
  if l = [] then none
  else if l.all Char.isDigit then some (digitsToNat l)
  else none

/-- A signed decimal literal: optional minus sign, then digits. -/
def parseSigned : List Char → Option Int
  | [] => none
  | c :: rest =>
    if c = '-' then
      match parseNatDigits rest with
      | some n => some (-(n : Int))
      | none => none
    else
      match parseNatDigits (c :: rest) with
      | some n => some ((n : Int))
      | none => none

/-- An integer literal: optional sign, then decimal digits
(whitespace-trimmed). -/
def parseIntLit (l : List Char) : Option Int :=
  parseSigned (trimChars l)

/-- The SQL statements the service (or text injected through its
interpolation) can issue against the users table. -/
inductive Stmt where
  | createTable
  | selectAll
  | dropTable
  | insertUsers (name email : String) (age : Int)
  | emptyStmt
deriving DecidableEq

def insPfx : List Char :=
  "INSERT INTO users(name, email, age) VALUES (".data

/-- Parse the argument text of the insert statement after the opening
parenthesis: a quoted name, a quoted email, and a bare age token up to
the closing parenthesis.  A non-integer age token is a store error
(syntax error or INT type error), returned as none. -/
def parseInsertArgs (l : List Char) : Option Stmt :=
  match l with
  | [] => none
  | c :: rest =>
    if c = sq then
      match readQuoted rest with
      | none => none
      | some (nm, r1) =>
        match expectComma r1 with
        | none => none
        | some r2 =>
          match r2.dropWhile isWs with
          | [] => none
          | c2 :: r3 =>
            if c2 = sq then
              match readQuoted r3 with
              | none => none
              | some (em, r4) =>
                match expectComma r4 with
                | none => none
                | some r5 =>
                  match splitAtRParen r5 with
                  | none => none
                  | some (tok, r6) =>
                    if trimChars r6 = [] then
                      match parseIntLit tok with
                      | some v => some (.insertUsers ⟨nm⟩ ⟨em⟩ v)
                      | none => none
                    else none
            else none
    else none

/-- Dispatch on the whitespace-trimmed statement text. -/
def parseStmtT (t : List Char) : Option Stmt :=
  if t = [] then some .emptyStmt
  else if t = "SELECT * FROM users".data then some .selectAll
  else if "CREATE TABLE IF NOT EXISTS users".data.isPrefixOf t then some .createTable
  else if t = "DROP TABLE users".data then some .dropTable
  else if insPfx.isPrefixOf t then parseInsertArgs (t.drop insPfx.length)
  else none

/-- Parse one statement of the reachable SQL fragment; anything else is
a store error (none). -/
def parseStmt (l : List Char) : Option Stmt :=
  parseStmtT (trimChars l)

/-! ### Store semantics -/

/-- PostgreSQL INT is 32-bit. -/
def intInRange (a : Int) : Bool := -2147483648 ≤ a && a ≤ 2147483647

/-- A value acceptable to the schema's VARCHAR(255) columns: at most
255 characters, and no NUL character (PostgreSQL text types reject
NUL). -/
def varcharOk (s : String) : Bool :=
  s.length ≤ 255 && s.data.all (fun c => !(c == '\x00'))

/-- Execute one statement: schema creation is idempotent, select needs
the table, drop destroys table and rows, insert enforces the UNIQUE
constraints on name and email, the VARCHAR(255) bound on both, and the
INT range of age, and assigns the next id.  none is a store error. -/
def execStmt (st : DBState) : Stmt → Option (DBState × List Row)
  | .emptyStmt => some (st, [])
  | .createTable =>
      some (if st.tableExists then st else ⟨true, [], 1⟩, [])
  | .selectAll =>
      if st.tableExists then some (st, st.rows) else none
  | .dropTable =>
      if st.tableExists then some (⟨false, [], st.nextId⟩, []) else none
  | .insertUsers n e a =>
      if st.tableExists
          && st.rows.all (fun r => !(r.name == n))
          && st.rows.all (fun r => !(r.email == e))
          && intInRange a
          && varcharOk n && varcharOk e then
        some (⟨true, st.rows ++ [⟨st.nextId, n, e, a⟩], st.nextId + 1⟩, [])
      else none

/-- Execute a statement list in one implicit transaction: any failure
aborts the whole query (the caller keeps the pre-query state).  The
returned row list is that of the last row-returning statement. -/
def execStmts (st : DBState) : List Stmt → Option (DBState × List Row)
  | [] => some (st, [])
  | s :: rest =>
    match execStmt st s with
    | none => none
    | some (st1, rs) =>
      match execStmts st1 rest with
      | none => none
      | some (st2, rs2) => some (st2, if rs2 = [] then rs else rs2)

/-- Execute a query string: lex into statements, parse each, run all in
one implicit transaction.  none models a rejected query (the awaited
promise throws and the handler answers 500). -/
def execSql (q : String) (st : DBState) : Option (DBState × List Row) :=
  match splitStatements q with
  | none => none
  | some parts =>
    match parts.mapM parseStmt with
    | none => none
    | some stmts => execStmts st stmts

/-! ### The three HTTP handlers -/

/-- index.js line 29: GET /api ignores the store entirely. -/
def apiHealth (st : DBState) : Nat × String × DBState :=
  (200, "Hello World!", st)

structure GetAllResult where
  status : Nat
  respRows : Option (List Row)
  state : DBState
deriving DecidableEq

/-- index.js lines 31-43: GET /api/all runs the select and answers 200
with the rows, or 500 when the query is rejected. -/
def getAll (st : DBState) : GetAllResult :=
  match execSql selectAllText st with
  | some (st1, rows) => ⟨200, some rows, st1⟩
  | none => ⟨500, none, st⟩

structure PostResult where
  status : Nat
  respBody : Option ReqBody
  state : DBState
deriving DecidableEq

/-- index.js lines 45-60: POST /api/form interpolates the three body
fields into the insert text, answers 200 echoing req.body on success,
500 on a rejected query (state unchanged: the transaction rolled
back). -/
def postForm (body : ReqBody) (st : DBState) : PostResult :=
  match execSql (insertQueryText body.name.interp body.email.interp body.age.interp) st with
  | some (st1, _) => ⟨200, some body, st1⟩
  | none => ⟨500, none, st⟩

/-- index.js lines 17-23: state of the store after startup schema
creation, starting from no table. -/
def boot : DBState :=
  match execSql createTableText ⟨false, [], 1⟩ with
  | some (st, _) => st
  | none => ⟨false, [], 1⟩

/-! ### Lexer lemmas -/

theorem foldl_step_append (l1 l2 : List Char) (s : SplitState) :
    (l1 ++ l2).foldl step s = l2.foldl step (l1.foldl step s) :=
  List.foldl_append step s l1 l2

theorem step_instr_of_ne (c : Char) (hc : c ≠ sq) (cur acc) :
    step ⟨.instr, cur, acc⟩ c = ⟨.instr, cur ++ [c], acc⟩ := by
  simp [step, hc]

theorem step_instr_sq (cur acc) :
    step ⟨.instr, cur, acc⟩ sq = ⟨.quoteSeen, cur ++ [sq], acc⟩ := by
  simp [step]

theorem step_quoteSeen_comma (cur acc) :
    step ⟨.quoteSeen, cur, acc⟩ ',' = ⟨.normal, cur ++ [','], acc⟩ := by
  simp [step, stepNormal, sq]

theorem step_normal_space (cur acc) :
    step ⟨.normal, cur, acc⟩ ' ' = ⟨.normal, cur ++ [' '], acc⟩ := by
  simp [step, stepNormal, sq]

theorem step_normal_sq (cur acc) :
    step ⟨.normal, cur, acc⟩ sq = ⟨.instr, cur ++ [sq], acc⟩ := by
  simp [step, stepNormal, sq]

theorem step_normal_semi (cur acc) :
    step ⟨.normal, cur, acc⟩ ';' = ⟨.normal, [], acc ++ [cur]⟩ := by
  simp [step, stepNormal, sq]

/-- Inside a string literal, quote-free text is consumed verbatim. -/
theorem instr_consume (n : List Char) (hn : ∀ c ∈ n, c ≠ sq) :
    ∀ (cur : List Char) (acc : List (List Char)),
    n.foldl step ⟨.instr, cur, acc⟩ = ⟨.instr, cur ++ n, acc⟩ := by
  induction n with
  | nil => intro cur acc; simp
  | cons c t ih =>
    intro cur acc
    have hc : c ≠ sq := hn c (by simp)
    have ht : ∀ x ∈ t, x ≠ sq := fun x hx => hn x (by simp [hx])
    simp only [List.foldl_cons, step_instr_of_ne c hc]
    rw [ih ht (cur ++ [c]) acc]
    simp

theorem alnum_ne (c : Char) (h : c.isAlphanum = true) :
    c ≠ ';' ∧ c ≠ sq ∧ c ≠ '-' ∧ c ≠ ')' ∧ isWs c = false ∧ c ≠ ',' := by
  refine ⟨?_, ?_, ?_, ?_, ?_, ?_⟩ <;>
    first
      | (intro he; subst he; exact absurd h (by decide))
      | (cases hw : isWs c
         · rfl
         · exfalso
           have : c = ' ' ∨ c = '\n' ∨ c = '\t' ∨ c = '\r' := by
             simpa [isWs, or_assoc] using hw
           rcases this with h1 | h1 | h1 | h1 <;> subst h1 <;> exact absurd h (by decide))

theorem step_normal_of_alnum (c : Char) (h : c.isAlphanum = true) (cur acc) :
    step ⟨.normal, cur, acc⟩ c = ⟨.normal, cur ++ [c], acc⟩ := by
  obtain ⟨h1, h2, h3, -⟩ := alnum_ne c h
  simp [step, stepNormal, h1, h2, h3]

theorem step_normal_rparen (cur acc) :
    step ⟨.normal, cur, acc⟩ ')' = ⟨.normal, cur ++ [')'], acc⟩ := by
  simp [step, stepNormal, sq]

theorem step_dashSeen_of_alnum (c : Char) (h : c.isAlphanum = true) (cur acc) :
    step ⟨.dashSeen, cur, acc⟩ c = ⟨.normal, cur ++ ['-', c], acc⟩ := by
  obtain ⟨h1, h2, h3, -⟩ := alnum_ne c h
  have hd : c ≠ '-' := h3
  simp [step, stepNormal, h1, h2, h3]

theorem step_dashSeen_rparen (cur acc) :
    step ⟨.dashSeen, cur, acc⟩ ')' = ⟨.normal, cur ++ ['-', ')'], acc⟩ := by
  simp [step, stepNormal, sq]

theorem step_normal_dash (cur acc) :
    step ⟨.normal, cur, acc⟩ '-' = ⟨.dashSeen, cur, acc⟩ := by
  simp [step, stepNormal, sq]

/-- Outside string literals, alphanumeric text is consumed verbatim. -/
theorem normal_consume_alnum (a : List Char) (ha : ∀ c ∈ a, c.isAlphanum = true) :
    ∀ (cur : List Char) (acc : List (List Char)),
    a.foldl step ⟨.normal, cur, acc⟩ = ⟨.normal, cur ++ a, acc⟩ := by
  induction a with
  | nil => intro cur acc; simp
  | cons c t ih =>
    intro cur acc
    have hc : c.isAlphanum = true := ha c (by simp)
    have ht : ∀ x ∈ t, x.isAlphanum = true := fun x hx => ha x (by simp [hx])
    simp only [List.foldl_cons, step_normal_of_alnum c hc]
    rw [ih ht (cur ++ [c]) acc]
    simp

/-- The age text the positive theorems need: an optional leading minus
sign followed by alphanumeric characters (covers decimal integers,
digit strings, and words such as undefined). -/
def safeAgeChars (l : List Char) : Prop :=
  match l with
  | [] => True
  | c :: t => (c.isAlphanum = true ∨ c = '-') ∧ ∀ x ∈ t, x.isAlphanum = true

/-- Outside string literals, a safe age text followed by a closing
parenthesis is consumed verbatim. -/
theorem normal_consume_safe (a : List Char) (ha : safeAgeChars a) :
    ∀ (cur : List Char) (acc : List (List Char)) (rest : List Char),
    (a ++ ')' :: rest).foldl step ⟨.normal, cur, acc⟩ =
      rest.foldl step ⟨.normal, (cur ++ a) ++ [')'], acc⟩ := by
  intro cur acc rest
  match a, ha with
  | [], _ => simp [step_normal_rparen]
  | c :: t, ⟨hc, ht⟩ =>
    rcases hc with hc | hc
    · simp only [List.cons_append, List.foldl_cons, step_normal_of_alnum c hc,
        foldl_step_append, normal_consume_alnum t ht]
      simp [step_normal_rparen, List.append_assoc]
    · subst hc
      match t, ht with
      | [], _ =>
        simp only [List.cons_append, List.nil_append, List.foldl_cons,
          step_normal_dash, step_dashSeen_rparen]
        simp
      | c2 :: t2, ht =>
        have hc2 : c2.isAlphanum = true := ht c2 (by simp)
        have ht2 : ∀ x ∈ t2, x.isAlphanum = true := fun x hx => ht x (by simp [hx])
        simp only [List.cons_append, List.foldl_cons, step_normal_dash,
          step_dashSeen_of_alnum c2 hc2, foldl_step_append,
          normal_consume_alnum t2 ht2]
        simp [step_normal_rparen, List.append_assoc]

/-- The single statement the lexer recovers from a benign insert query:
the full insert text without the final semicolon. -/
def insStmtChars (n e a : String) : List Char :=
  "INSERT INTO users(name, email, age) VALUES (\x27".data ++ n.data ++
    "\x27, \x27".data ++ e.data ++ "\x27, ".data ++ a.data ++ [')']

/-- Lexing the interpolated insert query: with quote-free name and
email and a safe age text, the query splits into exactly the one
insert statement (plus the empty tail statement after the final
semicolon). -/
theorem split_insert (n e a : String)
    (hn : ∀ c ∈ n.data, c ≠ sq) (he : ∀ c ∈ e.data, c ≠ sq)
    (ha : safeAgeChars a.data) :
    splitStatements (insertQueryText n e a) = some [insStmtChars n e a, []] := by
  have l1 : ("INSERT INTO users(name, email, age) VALUES (\x27" : String).data =
      "INSERT INTO users(name, email, age) VALUES (".data ++ [sq] := by decide
  have l2 : ("\x27, \x27" : String).data = sq :: ',' :: ' ' :: [sq] := by decide
  have l3 : ("\x27, " : String).data = sq :: ',' :: ' ' :: [] := by decide
  have l4 : ((");" : String)).data = ')' :: ';' :: [] := by decide
  have hdata : (insertQueryText n e a).data =
      "INSERT INTO users(name, email, age) VALUES (".data ++
        (sq :: (n.data ++ (sq :: ',' :: ' ' :: (sq ::
          (e.data ++ (sq :: ',' :: ' ' :: (a.data ++ (')' :: ';' :: [])))))))) := by
    simp [insertQueryText, String.data_append, l1, l2, l3, l4, sq]
  have h0 : ("INSERT INTO users(name, email, age) VALUES (" : String).data.foldl step
      ⟨.normal, [], []⟩ = ⟨.normal, "INSERT INTO users(name, email, age) VALUES (".data, []⟩ := by
    decide
  unfold splitStatements
  rw [hdata, foldl_step_append, h0, List.foldl_cons, step_normal_sq,
    foldl_step_append, instr_consume n.data hn,
    List.foldl_cons, step_instr_sq, List.foldl_cons, step_quoteSeen_comma,
    List.foldl_cons, step_normal_space, List.foldl_cons, step_normal_sq,
    foldl_step_append, instr_consume e.data he,
    List.foldl_cons, step_instr_sq, List.foldl_cons, step_quoteSeen_comma,
    List.foldl_cons, step_normal_space,
    normal_consume_safe a.data ha,
    List.foldl_cons, step_normal_semi]
  simp [finish, insStmtChars, l1, l2, l3, sq]

/-! ### Parser lemmas -/

theorem dropWhile_isWs_eq_self (l : List Char)
    (hh : ∀ c, l.head? = some c → isWs c = false) :
    l.dropWhile isWs = l := by
  cases l with
  | nil => rfl
  | cons c t => simp [List.dropWhile_cons, hh c rfl]

theorem trimChars_eq_self (l : List Char)
    (hh : ∀ c, l.head? = some c → isWs c = false)
    (hl : ∀ c, l.getLast? = some c → isWs c = false) : trimChars l = l := by
  unfold trimChars
  rw [dropWhile_isWs_eq_self l hh, dropWhile_isWs_eq_self l.reverse ?_,
    List.reverse_reverse]
  intro c hc
  rw [List.head?_reverse] at hc
  exact hl c hc

theorem trimChars_eq_self_of_all (l : List Char) (h : ∀ c ∈ l, isWs c = false) :
    trimChars l = l := by
  refine trimChars_eq_self l ?_ ?_
  · intro c hc
    cases l with
    | nil => simp at hc
    | cons d t => simp at hc; subst hc; exact h d (by simp)
  · intro c hc
    exact h c (List.mem_of_mem_getLast? hc)

theorem trimChars_cons_space (l : List Char) :
    trimChars (' ' :: l) = trimChars l := by
  have : (' ' :: l).dropWhile isWs = l.dropWhile isWs := by
    simp [List.dropWhile_cons, isWs]
  simp [trimChars, this]

theorem parseIntLit_cons_space (l : List Char) :
    parseIntLit (' ' :: l) = parseIntLit l := by
  unfold parseIntLit
  rw [trimChars_cons_space]

/-- Reading a quote-free string literal body closed by a quote that is
not doubled. -/
theorem readQuoted_closed (n : List Char) (hn : ∀ c ∈ n, c ≠ sq) :
    ∀ rest, rest.head? ≠ some sq →
    readQuoted (n ++ sq :: rest) = some (n, rest) := by
  induction n with
  | nil =>
    intro rest hr
    cases rest with
    | nil => simp [readQuoted]
    | cons c2 r2 =>
      have hc2 : ¬(c2 = sq) := by intro h; exact hr (by simp [h])
      simp [readQuoted, hc2]
  | cons c t ih =>
    intro rest hr
    have hc : ¬(c = sq) := hn c (by simp)
    have ht : ∀ x ∈ t, x ≠ sq := fun x hx => hn x (by simp [hx])
    rw [List.cons_append, readQuoted.eq_def]
    simp [hc, ih ht rest hr]

theorem splitAtRParen_closed (t : List Char) (ht : ∀ c ∈ t, c ≠ ')') :
    ∀ r, splitAtRParen (t ++ ')' :: r) = some (t, r) := by
  induction t with
  | nil => intro r; simp [splitAtRParen]
  | cons c u ih =>
    intro r
    have hc : ¬(c = ')') := ht c (by simp)
    have hu : ∀ x ∈ u, x ≠ ')' := fun x hx => ht x (by simp [hx])
    simp [splitAtRParen, hc, ih hu r]

theorem isPrefixOf_app (p l : List Char) : p.isPrefixOf (p ++ l) = true := by
  induction p with
  | nil => simp [List.isPrefixOf]
  | cons c t ih => simp [List.isPrefixOf, ih]

theorem isWs_sq : isWs sq = false := by decide

theorem isWs_comma : isWs ',' = false := by decide

theorem isWs_space : isWs ' ' = true := by decide

theorem trimChars_nil : trimChars [] = [] := rfl

theorem strMk_data (s : String) : String.mk s.data = s := by
  cases s; rfl

/-- Characters of a safe age text are not whitespace. -/
theorem safeAge_no_ws (a : List Char) (ha : safeAgeChars a) :
    ∀ c ∈ a, isWs c = false := by
  match a, ha with
  | [], _ => intro c hc; simp at hc
  | c :: t, ⟨hc, ht⟩ =>
    intro x hx
    rcases List.mem_cons.mp hx with h | h
    · subst h
      rcases hc with hc | hc
      · exact (alnum_ne x hc).2.2.2.2.1
      · subst hc; decide
    · exact (alnum_ne x (ht x h)).2.2.2.2.1

/-- Characters of a safe age text are not closing parentheses. -/
theorem safeAge_no_rparen (a : List Char) (ha : safeAgeChars a) :
    ∀ c ∈ a, c ≠ ')' := by
  match a, ha with
  | [], _ => intro c hc; simp at hc
  | c :: t, ⟨hc, ht⟩ =>
    intro x hx
    rcases List.mem_cons.mp hx with h | h
    · subst h
      rcases hc with hc | hc
      · exact (alnum_ne x hc).2.2.2.1
      · subst hc; decide
    · exact (alnum_ne x (ht x h)).2.2.2.1

/-- Parsing the lexed benign insert statement: the name and email are
recovered verbatim and the age token decides between a parsed insert
and a store error. -/
theorem parseStmt_insert (n e a : String)
    (hn : ∀ c ∈ n.data, c ≠ sq) (he : ∀ c ∈ e.data, c ≠ sq)
    (ha : safeAgeChars a.data) :
    parseStmt (insStmtChars n e a) =
      match parseIntLit a.data with
      | some v => some (.insertUsers n e v)
      | none => none := by
  have hsh : insStmtChars n e a =
      insPfx ++ (sq :: (n.data ++ (sq :: ',' :: ' ' :: (sq ::
        (e.data ++ (sq :: ',' :: ' ' :: (a.data ++ [')']))))))) := by
    simp [insStmtChars, insPfx, sq]
  have hlast : (insStmtChars n e a).getLast? = some ')' := by
    have : insStmtChars n e a =
        ("INSERT INTO users(name, email, age) VALUES (\x27".data ++ n.data ++
          "\x27, \x27".data ++ e.data ++ "\x27, ".data ++ a.data) ++ [')'] := by
      simp [insStmtChars]
    rw [this, List.getLast?_concat]
  have htrim : trimChars (insStmtChars n e a) = insStmtChars n e a := by
    refine trimChars_eq_self _ ?_ ?_
    · intro c hc
      rw [hsh] at hc
      simp [insPfx] at hc
      subst hc; decide
    · intro c hc
      rw [hlast] at hc
      simp at hc; subst hc; decide
  have hq1 : readQuoted (n.data ++ sq ::
      (',' :: ' ' :: sq :: (e.data ++ sq :: ',' :: ' ' :: (a.data ++ [')'])))) =
      some (n.data, ',' :: ' ' :: sq :: (e.data ++ sq :: ',' :: ' ' :: (a.data ++ [')']))) :=
    readQuoted_closed n.data hn _ (by simp [sq])
  have hq2 : readQuoted (e.data ++ sq :: (',' :: ' ' :: (a.data ++ [')']))) =
      some (e.data, ',' :: ' ' :: (a.data ++ [')'])) :=
    readQuoted_closed e.data he _ (by simp [sq])
  have hsplit : splitAtRParen (' ' :: (a.data ++ [')'])) = some (' ' :: a.data, []) := by
    have h1 : (' ' :: (a.data ++ [')'])) = (' ' :: a.data) ++ ')' :: [] := by simp
    rw [h1]
    refine splitAtRParen_closed _ ?_ _
    intro c hc
    rcases List.mem_cons.mp hc with h | h
    · subst h; decide
    · exact safeAge_no_rparen a.data ha c h
  rw [hsh] at htrim ⊢
  unfold parseStmt
  rw [htrim]
  unfold parseStmtT
  rw [if_neg (by simp [insPfx]), if_neg (by simp [insPfx]),
    if_neg (by simp [insPfx, List.isPrefixOf]), if_neg (by simp [insPfx]),
    if_pos (isPrefixOf_app _ _), List.drop_left]
  simp only [parseInsertArgs, hq1, hq2, hsplit, expectComma, parseIntLit_cons_space,
    List.dropWhile_cons, List.dropWhile_nil, isWs_sq, isWs_comma, isWs_space,
    trimChars_nil, strMk_data]
  simp [hq2, hsplit, expectComma, parseIntLit_cons_space, isWs_sq, isWs_comma,
    isWs_space, trimChars_nil, strMk_data]

theorem parseStmt_nil : parseStmt [] = some .emptyStmt := rfl

/-- The full characterization of a benign create-user query against the
store: with quote-free name and email and safe age text the query acts
as exactly one insert statement, which succeeds (appending one row with
the next id) iff the table exists, name and email are fresh and fit
the VARCHAR(255) columns, and the age literal is an in-range
integer. -/
theorem execSql_insert (n e a : String)
    (hn : ∀ c ∈ n.data, c ≠ sq) (he : ∀ c ∈ e.data, c ≠ sq)
    (ha : safeAgeChars a.data) (st : DBState) :
    execSql (insertQueryText n e a) st =
      match parseIntLit a.data with
      | none => none
      | some v =>
        if st.tableExists && st.rows.all (fun r => !(r.name == n))
            && st.rows.all (fun r => !(r.email == e)) && intInRange v
            && varcharOk n && varcharOk e then
          some (⟨true, st.rows ++ [⟨st.nextId, n, e, v⟩], st.nextId + 1⟩, [])
        else none := by
  unfold execSql
  rw [split_insert n e a hn he ha]
  simp only [List.mapM_cons, List.mapM_nil, parseStmt_insert n e a hn he ha, parseStmt_nil]
  cases hv : parseIntLit a.data with
  | none => simp
  | some v =>
    cases hcnd : (st.tableExists && st.rows.all (fun r => !(r.name == n))
        && st.rows.all (fun r => !(r.email == e)) && intInRange v
        && varcharOk n && varcharOk e) with
    | true =>
      simp only [Option.pure_def, Option.bind_eq_bind, Option.some_bind]
      simp [execStmts, execStmt, hcnd]
    | false =>
      simp only [Option.pure_def, Option.bind_eq_bind, Option.some_bind]
      simp [execStmts, execStmt, hcnd]

/-! ### Decimal rendering of integers (JavaScript template interpolation
of a JSON number) and its round trip through the SQL integer literal -/

theorem digit_ne_dash (c : Char) (h : c.isDigit = true) : c ≠ '-' := by
  intro he; subst he; exact absurd h (by decide)

theorem alpha_ne_dash (c : Char) (h : c.isAlpha = true) : c ≠ '-' := by
  intro he; subst he; exact absurd h (by decide)

theorem digit_alnum (c : Char) (h : c.isDigit = true) : c.isAlphanum = true := by
  simp [Char.isAlphanum, h]

theorem alpha_alnum (c : Char) (h : c.isAlpha = true) : c.isAlphanum = true := by
  simp [Char.isAlphanum, h]

theorem alpha_not_digit (c : Char) (h : c.isAlpha = true) : c.isDigit = false := by
  simp [Char.isAlpha, Char.isLower, Char.isUpper, Char.isDigit] at *
  intro h48
  have g48 : (48 : Nat) ≤ c.val.toNat := h48
  rcases h with ⟨h1, h2⟩ | ⟨h1, h2⟩
  · have g1 : (65 : Nat) ≤ c.val.toNat := h1
    have g2 : c.val.toNat ≤ (90 : Nat) := h2
    show (57 : Nat) < c.val.toNat
    omega
  · have g1 : (97 : Nat) ≤ c.val.toNat := h1
    have g2 : c.val.toNat ≤ (122 : Nat) := h2
    show (57 : Nat) < c.val.toNat
    omega

theorem digitChar_isDigit (d : Nat) (h : d < 10) : (Nat.digitChar d).isDigit = true := by
  interval_cases d <;> decide

theorem digVal_digitChar (d : Nat) (h : d < 10) : digVal (Nat.digitChar d) = d := by
  interval_cases d <;> decide

/-- Decimal digit characters of a natural number, most significant
first: the reference list behind Nat.repr. -/
def natDigs (n : Nat) : List Char :=
  if _h : n < 10 then [Nat.digitChar n]
  else natDigs (n / 10) ++ [Nat.digitChar (n % 10)]
decreasing_by
  exact Nat.div_lt_self (by omega) (by decide)

theorem toDigitsCore_eq : ∀ (fuel n : Nat) (ds : List Char), n < fuel →
    Nat.toDigitsCore 10 fuel n ds = natDigs n ++ ds := by
  intro fuel
  induction fuel with
  | zero => intro n ds h; omega
  | succ fuel ih =>
    intro n ds h
    show (if n / 10 = 0 then Nat.digitChar (n % 10) :: ds
      else Nat.toDigitsCore 10 fuel (n / 10) (Nat.digitChar (n % 10) :: ds)) = _
    by_cases h0 : n / 10 = 0
    · have hn : n < 10 := by omega
      rw [if_pos h0, natDigs, dif_pos hn, Nat.mod_eq_of_lt hn]
      simp
    · have hn : ¬(n < 10) := by omega
      have hlt : n / 10 < fuel := by
        have hx : n / 10 < n := Nat.div_lt_self (by omega) (by decide)
        omega
      rw [if_neg h0, ih (n / 10) _ hlt]
      conv_rhs => rw [natDigs, dif_neg hn]
      simp

theorem natRepr_data (n : Nat) : (Nat.repr n).data = natDigs n := by
  show (List.asString (Nat.toDigits 10 n)).data = natDigs n
  rw [Nat.toDigits, toDigitsCore_eq (n + 1) n [] (Nat.lt_succ_self n)]
  simp [List.asString]

theorem natDigs_digits (n : Nat) : ∀ c ∈ natDigs n, c.isDigit = true := by
  induction n using Nat.strong_induction_on with
  | _ n ih =>
    rw [natDigs]
    by_cases h : n < 10
    · rw [dif_pos h]
      intro c hc; simp at hc; subst hc; exact digitChar_isDigit n h
    · rw [dif_neg h]
      intro c hc
      rcases List.mem_append.mp hc with h1 | h1
      · exact ih (n / 10) (Nat.div_lt_self (by omega) (by decide)) c h1
      · simp at h1; subst h1
        exact digitChar_isDigit _ (Nat.mod_lt n (by decide))

theorem natDigs_ne_nil (n : Nat) : natDigs n ≠ [] := by
  rw [natDigs]
  by_cases h : n < 10
  · rw [dif_pos h]; simp
  · rw [dif_neg h]; simp

theorem foldl_digs_append (l1 l2 : List Char) (a : Nat) :
    (l1 ++ l2).foldl (fun acc c => acc * 10 + digVal c) a =
      l2.foldl (fun acc c => acc * 10 + digVal c) (l1.foldl (fun acc c => acc * 10 + digVal c) a) :=
  List.foldl_append _ a l1 l2

theorem foldl_natDigs (n : Nat) : ∀ a : Nat,
    (natDigs n).foldl (fun acc c => acc * 10 + digVal c) a =
      a * 10 ^ (natDigs n).length + n := by
  induction n using Nat.strong_induction_on with
  | _ n ih =>
    intro a
    by_cases h : n < 10
    · rw [natDigs, dif_pos h]
      simp [digVal_digitChar n h]
    · rw [natDigs, dif_neg h]
      rw [foldl_digs_append, ih (n / 10) (Nat.div_lt_self (by omega) (by decide)) a]
      have hm : n % 10 < 10 := Nat.mod_lt n (by decide)
      simp [digVal_digitChar _ hm, List.length_append, pow_succ]
      have : a * (10 ^ (natDigs (n / 10)).length * 10) =
          a * 10 ^ (natDigs (n / 10)).length * 10 := by ring
      rw [this]
      have hdm := Nat.div_add_mod n 10
      ring_nf
      omega

theorem digitsToNat_natDigs (n : Nat) : digitsToNat (natDigs n) = n := by
  have := foldl_natDigs n 0
  simpa [digitsToNat] using this

theorem parseNatDigits_natDigs (n : Nat) : parseNatDigits (natDigs n) = some n := by
  unfold parseNatDigits
  rw [if_neg (natDigs_ne_nil n), if_pos ?_, digitsToNat_natDigs]
  rw [List.all_eq_true]
  intro c hc
  exact natDigs_digits n c hc

/-- The decimal text of an integer, as a character list. -/
theorem toString_int_data (v : Int) : (toString v).data =
    match v with
    | .ofNat m => natDigs m
    | .negSucc m => '-' :: natDigs (m + 1) := by
  cases v with
  | ofNat m => exact natRepr_data m
  | negSucc m =>
    show (("-" : String) ++ Nat.repr (m + 1)).data = '-' :: natDigs (m + 1)
    rw [String.data_append, natRepr_data]
    rfl

theorem digit_not_ws (c : Char) (h : c.isDigit = true) : isWs c = false :=
  (alnum_ne c (digit_alnum c h)).2.2.2.2.1

theorem safeAge_int (v : Int) : safeAgeChars ((toString v).data) := by
  rw [toString_int_data]
  cases v with
  | ofNat m =>
    show safeAgeChars (natDigs m)
    rcases hd : natDigs m with _ | ⟨c, t⟩
    · exact trivial
    · refine ⟨Or.inl ?_, ?_⟩
      · exact digit_alnum c (natDigs_digits m c (by rw [hd]; simp))
      · intro x hx
        exact digit_alnum x (natDigs_digits m x (by rw [hd]; simp [hx]))
  | negSucc m =>
    refine ⟨Or.inr rfl, ?_⟩
    intro x hx
    exact digit_alnum x (natDigs_digits (m + 1) x hx)

theorem parseIntLit_int (v : Int) : parseIntLit ((toString v).data) = some v := by
  rw [toString_int_data]
  cases v with
  | ofNat m =>
    show parseIntLit (natDigs m) = some (Int.ofNat m)
    unfold parseIntLit
    rw [trimChars_eq_self_of_all _ (fun c hc => digit_not_ws c (natDigs_digits m c hc))]
    cases hd : natDigs m with
    | nil => exact absurd hd (natDigs_ne_nil m)
    | cons c t =>
      have hc : c.isDigit = true := natDigs_digits m c (by rw [hd]; simp)
      rw [parseSigned.eq_def]
      simp only [if_neg (digit_ne_dash c hc)]
      rw [← hd, parseNatDigits_natDigs]
      rfl
  | negSucc m =>
    show parseIntLit ('-' :: natDigs (m + 1)) = some (Int.negSucc m)
    unfold parseIntLit
    rw [trimChars_eq_self_of_all _ ?_]
    · rw [parseSigned.eq_def]
      simp only [if_pos trivial, if_true, if_pos rfl, reduceIte]
      rw [parseNatDigits_natDigs]
      have heq : -((m + 1 : Nat) : Int) = Int.negSucc m := by
        rw [Int.negSucc_eq]
        push_cast
        ring
      simp [heq]
      omega
    · intro c hc
      rcases List.mem_cons.mp hc with h | h
      · subst h; decide
      · exact digit_not_ws c (natDigs_digits (m + 1) c h)

theorem parseIntLit_alpha (l : List Char) (h : ∀ c ∈ l, c.isAlpha = true) :
    parseIntLit l = none := by
  unfold parseIntLit
  rw [trimChars_eq_self_of_all l
    (fun c hc => (alnum_ne c (alpha_alnum c (h c hc))).2.2.2.2.1)]
  cases l with
  | nil => rfl
  | cons c t =>
    have hc : c.isAlpha = true := h c (by simp)
    rw [parseSigned.eq_def]
    simp only [if_neg (alpha_ne_dash c hc)]
    unfold parseNatDigits
    rw [if_neg (by simp), if_neg ?_]
    intro hall
    rw [List.all_eq_true] at hall
    have h2 := hall c (by simp)
    simp [alpha_not_digit c hc] at h2

/-- A purely alphabetic text (such as the interpolation, undefined, of
an absent field) is safe age text. -/
theorem safeAge_alpha (l : List Char) (h : ∀ c ∈ l, c.isAlpha = true) :
    safeAgeChars l := by
  cases l with
  | nil => exact trivial
  | cons c t =>
    exact ⟨Or.inl (alpha_alnum c (h c (by simp))),
      fun x hx => alpha_alnum x (h x (by simp [hx]))⟩

/-- A nonempty all-digit text is safe age text and parses to its
decimal value. -/
theorem safeAge_digits (l : List Char) (h : ∀ c ∈ l, c.isDigit = true) :
    safeAgeChars l := by
  cases l with
  | nil => exact trivial
  | cons c t =>
    exact ⟨Or.inl (digit_alnum c (h c (by simp))),
      fun x hx => digit_alnum x (h x (by simp [hx]))⟩

theorem parseIntLit_digits (l : List Char) (hne : l ≠ [])
    (h : ∀ c ∈ l, c.isDigit = true) :
    parseIntLit l = some ((digitsToNat l : Nat) : Int) := by
  unfold parseIntLit
  rw [trimChars_eq_self_of_all l (fun c hc => digit_not_ws c (h c hc))]
  cases l with
  | nil => exact absurd rfl hne
  | cons c t =>
    have hc : c.isDigit = true := h c (by simp)
    rw [parseSigned.eq_def]
    simp only [if_neg (digit_ne_dash c hc)]
    unfold parseNatDigits
    rw [if_neg (by simp), if_pos (by rw [List.all_eq_true]; exact h)]

/-! ### Handler-level characterizations -/

theorem execSql_selectAll (st : DBState) :
    execSql selectAllText st = if st.tableExists then some (st, st.rows) else none := by
  have hsplit : splitStatements selectAllText = some ["SELECT * FROM users".data] := by
    decide
  have hparse : List.mapM parseStmt ["SELECT * FROM users".data] = some [.selectAll] := by
    decide
  unfold execSql
  simp only [hsplit, hparse]
  cases h : st.tableExists with
  | true => simp [execStmts, execStmt, h]
  | false => simp [execStmts, execStmt, h]

set_option maxRecDepth 4000 in
/-- The store state after startup: the users table exists and is empty,
with the id sequence at 1. -/
theorem boot_eq : boot = ⟨true, [], 1⟩ := by decide

theorem getAll_table (st : DBState) (h : st.tableExists = true) :
    getAll st = ⟨200, some st.rows, st⟩ := by
  unfold getAll
  rw [execSql_selectAll, if_pos h]

theorem getAll_no_table (st : DBState) (h : st.tableExists = false) :
    getAll st = ⟨500, none, st⟩ := by
  unfold getAll
  rw [execSql_selectAll, if_neg (by simp [h])]

/-- GET /api/all never changes the store state. -/
theorem getAll_state (st : DBState) : (getAll st).state = st := by
  cases h : st.tableExists with
  | true => rw [getAll_table st h]
  | false => rw [getAll_no_table st h]

/-- A benign request body: quote-free name and email interpolations and
a safe age interpolation. -/
def benign (b : ReqBody) : Prop :=
  (∀ c ∈ b.name.interp.data, c ≠ sq) ∧ (∀ c ∈ b.email.interp.data, c ≠ sq) ∧
    safeAgeChars b.age.interp.data

/-- Full behavior of POST /api/form on a benign request. -/
theorem postForm_benign (b : ReqBody) (st : DBState) (hb : benign b) :
    postForm b st =
      match parseIntLit b.age.interp.data with
      | none => ⟨500, none, st⟩
      | some v =>
        if st.tableExists && st.rows.all (fun r => !(r.name == b.name.interp))
            && st.rows.all (fun r => !(r.email == b.email.interp)) && intInRange v
            && varcharOk b.name.interp && varcharOk b.email.interp then
          ⟨200, some b,
            ⟨true, st.rows ++ [⟨st.nextId, b.name.interp, b.email.interp, v⟩], st.nextId + 1⟩⟩
        else ⟨500, none, st⟩ := by
  unfold postForm
  rw [execSql_insert _ _ _ hb.1 hb.2.1 hb.2.2 st]
  cases hv : parseIntLit b.age.interp.data with
  | none => rfl
  | some v =>
    cases hcnd : (st.tableExists && st.rows.all (fun r => !(r.name == b.name.interp))
        && st.rows.all (fun r => !(r.email == b.email.interp)) && intInRange v
        && varcharOk b.name.interp && varcharOk b.email.interp) with
    | true => simp [hcnd]
    | false => simp [hcnd]

/-- Boolean form of safeAgeChars. -/
def safeAgeDec : List Char → Bool
  | [] => true
  | c :: t => (c.isAlphanum || c = '-') && t.all (fun x => x.isAlphanum)

theorem safeAgeDec_iff (l : List Char) : safeAgeDec l = true ↔ safeAgeChars l := by
  cases l with
  | nil => simp [safeAgeDec, safeAgeChars]
  | cons c t =>
    simp [safeAgeDec, safeAgeChars, List.all_eq_true]

instance safeAgeChars_dec (l : List Char) : Decidable (safeAgeChars l) :=
  decidable_of_iff _ (safeAgeDec_iff l)

instance benign_dec (b : ReqBody) : Decidable (benign b) :=
  inferInstanceAs (Decidable (_ ∧ _ ∧ _))

/-- Invariant of the store: every assigned id is below the sequence. -/
def WF (st : DBState) : Prop := ∀ r ∈ st.rows, r.id < st.nextId

instance WF_dec (st : DBState) : Decidable (WF st) :=
  inferInstanceAs (Decidable (∀ r ∈ st.rows, r.id < st.nextId))

/-- The three operations the service exposes. -/
inductive ServiceOp where
  | health
  | listAll
  | create (b : ReqBody)

def ServiceOp.benignOp : ServiceOp → Prop
  | .create b => benign b
  | _ => True

/-- The store state after an operation. -/
def ServiceOp.applyOp : ServiceOp → DBState → DBState
  | .health, st => (apiHealth st).2.2
  | .listAll, st => (getAll st).state
  | .create b, st => (postForm b st).state

/-! ### Concrete request bodies used in witnesses and counterexamples -/

/-- The concrete scenario of the spec: alice. -/
def aliceBody : ReqBody := ⟨.str "alice", .str "alice@example.com", .num 30⟩

/-- The crafted injection name of the spec. -/
def craftedName : String := "x\x27, \x27\x27, 0); DROP TABLE users; --"

def craftedBody : ReqBody := ⟨.str craftedName, .str "e@e.com", .num 30⟩

/-- A name with a single quote. -/
def obName : String := "O\x27B"

def obBody : ReqBody := ⟨.str obName, .str "o@e.com", .num 30⟩

/-- First request of the duplicate-email pair: its name injects a
complete insert of other values and comments out the rest, so its
email value never reaches the store. -/
def injEmailBody : ReqBody :=
  ⟨.str ("x\x27, \x27ceA\x27, 5); --"), .str "shared@e", .num 1⟩

def bobSharedBody : ReqBody := ⟨.str "bob", .str "shared@e", .num 2⟩

/-- An age value injecting a terminated insert plus a comment. -/
def ageInjBody : ReqBody := ⟨.str "n", .str "e", .str "0); --"⟩

/-- A body missing its name field. -/
def missingNameBody : ReqBody := ⟨.undef, .str "e@e.com", .num 30⟩

/-- A digit-string age with a quote-corrupted name. -/
def obDigitAgeBody : ReqBody := ⟨.str obName, .str "o2@e.com", .str "30"⟩

/-! ### Claims -/

/-- C8: the health-check endpoint GET /api answers 200 with the fixed
text Hello World! in every store state, its output does not depend on
the store state, and it leaves the store state unchanged. -/
theorem c8_health_check (st : DBState) : apiHealth st = (200, "Hello World!", st) := rfl

/-- C7: when the users table exists and is empty, GET /api/all answers
200 with the empty row sequence, not an error, and leaves the state
unchanged. -/
theorem c7_list_users_empty (st : DBState) (h1 : st.tableExists = true)
    (h2 : st.rows = []) : getAll st = ⟨200, some [], st⟩ := by
  rw [getAll_table st h1, h2]

set_option maxRecDepth 4000 in
theorem c7_witness :
    (boot.tableExists = true ∧ boot.rows = []) ∧ getAll boot = ⟨200, some [], boot⟩ :=
  ⟨⟨by decide, by decide⟩, c7_list_users_empty boot (by decide) (by decide)⟩

/-- C6: whenever POST /api/form answers with success status 200, the
response body is exactly the request body (the submitted name, email
and age fields echoed); a ReqBody carries no id field, so the
store-generated id is not part of the response. -/
theorem c6_create_echo (b : ReqBody) (st : DBState)
    (h : (postForm b st).status = 200) : (postForm b st).respBody = some b := by
  unfold postForm at h ⊢
  cases hex : execSql (insertQueryText b.name.interp b.email.interp b.age.interp) st with
  | none => rw [hex] at h; simp at h
  | some p => obtain ⟨st1, rs⟩ := p; rfl

set_option maxRecDepth 4000 in
theorem c6_witness :
    (postForm aliceBody boot).status = 200 ∧
      (postForm aliceBody boot).respBody = some aliceBody :=
  ⟨by decide, c6_create_echo aliceBody boot (by decide)⟩

set_option maxRecDepth 4000 in
/-- C1 (the code violates the claimed property): submitting the
crafted name to POST /api/form on the freshly booted store makes the
request succeed with 200, yet afterwards the users table no longer
exists and holds no rows: the injected DROP TABLE users statement was
executed, the crafted name was not stored verbatim (the store briefly
held a row named x), and a subsequent GET /api/all fails with 500. -/
theorem c1_injection_executes :
    (postForm craftedBody boot).status = 200 ∧
    (postForm craftedBody boot).state = ⟨false, [], 2⟩ ∧
    (getAll (postForm craftedBody boot).state).status = 500 := by decide

set_option maxRecDepth 4000 in
/-- C2 as frozen is violated by the code: the name O(quote)B is not
already present, the email is not already present, and the age is the
integer 30, yet create-user fails with 500 (the quote corrupts the
interpolated statement) and the following list-users contains no
matching record rather than exactly one. -/
theorem c2_counterexample :
    (postForm obBody boot).status = 500 ∧
    ((getAll (postForm obBody boot).state).respRows.getD []).countP
      (fun r => r.name == obName && r.email == "o@e.com" && r.age == 30) = 0 := by
  decide

/-- C2 (amended: name and email interpolations additionally contain no
single-quote character and fit the VARCHAR(255) columns, at most 255
characters and NUL-free, and the age is in INT range): create-user
with a fresh name and fresh email and integer age succeeds, and
list-users afterwards returns exactly one record carrying the
submitted name, email and age. -/
theorem c2_create_then_list (b : ReqBody) (st : DBState) (v : Int)
    (hq1 : ∀ c ∈ b.name.interp.data, c ≠ sq)
    (hq2 : ∀ c ∈ b.email.interp.data, c ≠ sq)
    (hv1 : varcharOk b.name.interp = true)
    (hv2 : varcharOk b.email.interp = true)
    (hage : b.age = .num v) (hrange : intInRange v = true)
    (htab : st.tableExists = true)
    (hn : ∀ r ∈ st.rows, r.name ≠ b.name.interp)
    (he : ∀ r ∈ st.rows, r.email ≠ b.email.interp) :
    (postForm b st).status = 200 ∧
    (getAll (postForm b st).state).status = 200 ∧
    ((getAll (postForm b st).state).respRows.getD []).countP
      (fun r => r.name == b.name.interp && r.email == b.email.interp && r.age == v) = 1 := by
  have hb : benign b := ⟨hq1, hq2, by rw [hage]; exact safeAge_int v⟩
  have hparse : parseIntLit b.age.interp.data = some v := by
    rw [hage]; exact parseIntLit_int v
  have hall1 : st.rows.all (fun r => !(r.name == b.name.interp)) = true := by
    rw [List.all_eq_true]; intro r hr; simpa using hn r hr
  have hall2 : st.rows.all (fun r => !(r.email == b.email.interp)) = true := by
    rw [List.all_eq_true]; intro r hr; simpa using he r hr
  have hpost : postForm b st = ⟨200, some b,
      ⟨true, st.rows ++ [⟨st.nextId, b.name.interp, b.email.interp, v⟩], st.nextId + 1⟩⟩ := by
    rw [postForm_benign b st hb]
    simp only [hparse, htab, hall1, hall2, hrange, hv1, hv2]
    simp
  rw [hpost]
  refine ⟨rfl, ?_, ?_⟩
  · rw [getAll_table _ rfl]
  · rw [getAll_table _ rfl]
    have hzero : st.rows.countP (fun r => r.name == b.name.interp
        && r.email == b.email.interp && r.age == v) = 0 := by
      rw [List.countP_eq_zero]
      intro r hr
      simp only [Bool.and_eq_true, beq_iff_eq, not_and]
      intro h1
      exact absurd h1.1 (hn r hr)
    simp only [Option.getD_some, List.countP_append, List.countP_cons, List.countP_nil,
      hzero]
    simp

set_option maxRecDepth 8000 in
/-- C3 as frozen is violated by the code: two create-user requests
carry the same email shared@e; the first (whose name field injects an
insert of entirely different values and comments out the remainder of
the statement, so its email value never reaches the store) succeeds,
and the second also succeeds with 200 instead of failing with a server
error. -/
theorem c3_counterexample :
    injEmailBody.email = bobSharedBody.email ∧
    (postForm injEmailBody boot).status = 200 ∧
    (postForm bobSharedBody (postForm injEmailBody boot).state).status = 200 := by
  decide

/-- C3 (amended: both requests have quote-free name and email
interpolations and integer age fields): when the first create succeeds
and the second carries the same name or the same email, the second
create fails with 500, the store state is unchanged by it, and a
subsequent list-users returns exactly the rows present after the first
create. -/
theorem c3_duplicate_rejected (b1 b2 : ReqBody) (st : DBState) (v1 v2 : Int)
    (hq1 : ∀ c ∈ b1.name.interp.data, c ≠ sq)
    (hq2 : ∀ c ∈ b1.email.interp.data, c ≠ sq)
    (hq3 : ∀ c ∈ b2.name.interp.data, c ≠ sq)
    (hq4 : ∀ c ∈ b2.email.interp.data, c ≠ sq)
    (ha1 : b1.age = .num v1) (ha2 : b2.age = .num v2)
    (hdup : b1.name.interp = b2.name.interp ∨ b1.email.interp = b2.email.interp)
    (h200 : (postForm b1 st).status = 200) :
    postForm b2 (postForm b1 st).state = ⟨500, none, (postForm b1 st).state⟩ ∧
    (getAll (postForm b2 (postForm b1 st).state).state).respRows =
      some (postForm b1 st).state.rows := by
  have hb1 : benign b1 := ⟨hq1, hq2, by rw [ha1]; exact safeAge_int v1⟩
  have hb2 : benign b2 := ⟨hq3, hq4, by rw [ha2]; exact safeAge_int v2⟩
  have hp1 : parseIntLit b1.age.interp.data = some v1 := by
    rw [ha1]; exact parseIntLit_int v1
  have hp2 : parseIntLit b2.age.interp.data = some v2 := by
    rw [ha2]; exact parseIntLit_int v2
  have hch := postForm_benign b1 st hb1
  simp only [hp1] at hch
  cases hcnd1 : (st.tableExists && st.rows.all (fun r => !(r.name == b1.name.interp))
      && st.rows.all (fun r => !(r.email == b1.email.interp)) && intInRange v1
      && varcharOk b1.name.interp && varcharOk b1.email.interp) with
  | false =>
    rw [hcnd1, if_neg (by simp)] at hch
    rw [hch] at h200
    simp at h200
  | true =>
    rw [hcnd1, if_pos rfl] at hch
    rw [hch]
    have hrow : (⟨st.nextId, b1.name.interp, b1.email.interp, v1⟩ : Row) ∈
        st.rows ++ [⟨st.nextId, b1.name.interp, b1.email.interp, v1⟩] := by simp
    have hcnd2 : ((⟨true, st.rows ++ [(⟨st.nextId, b1.name.interp, b1.email.interp, v1⟩ : Row)],
        st.nextId + 1⟩ : DBState).tableExists
        && (st.rows ++ [(⟨st.nextId, b1.name.interp, b1.email.interp, v1⟩ : Row)]).all
          (fun r => !(r.name == b2.name.interp))
        && (st.rows ++ [(⟨st.nextId, b1.name.interp, b1.email.interp, v1⟩ : Row)]).all
          (fun r => !(r.email == b2.email.interp))
        && intInRange v2
        && varcharOk b2.name.interp && varcharOk b2.email.interp) = false := by
      rcases hdup with hd | hd
      · have hfa : (st.rows ++ [(⟨st.nextId, b1.name.interp, b1.email.interp, v1⟩ : Row)]).all
            (fun r => !(r.name == b2.name.interp)) = false := by
          rw [List.all_eq_false]
          refine ⟨⟨st.nextId, b1.name.interp, b1.email.interp, v1⟩, hrow, ?_⟩
          simp [hd]
        simp [hfa]
      · have hfa : (st.rows ++ [(⟨st.nextId, b1.name.interp, b1.email.interp, v1⟩ : Row)]).all
            (fun r => !(r.email == b2.email.interp)) = false := by
          rw [List.all_eq_false]
          refine ⟨⟨st.nextId, b1.name.interp, b1.email.interp, v1⟩, hrow, ?_⟩
          simp [hd]
        simp [hfa]
    have hch2 := postForm_benign b2
      ⟨true, st.rows ++ [⟨st.nextId, b1.name.interp, b1.email.interp, v1⟩], st.nextId + 1⟩ hb2
    simp only [hp2] at hch2
    rw [hcnd2, if_neg (by simp)] at hch2
    rw [hch2]
    exact ⟨rfl, by rw [getAll_table _ rfl]⟩

set_option maxRecDepth 4000 in
theorem c2_witness :
    (postForm aliceBody boot).status = 200 ∧
    (getAll (postForm aliceBody boot).state).status = 200 ∧
    ((getAll (postForm aliceBody boot).state).respRows.getD []).countP
      (fun r => r.name == aliceBody.name.interp && r.email == aliceBody.email.interp
        && r.age == 30) = 1 :=
  c2_create_then_list aliceBody boot 30 (by decide) (by decide) (by decide) (by decide)
    rfl (by decide) (by decide) (by decide) (by decide)

/-- First of two benign requests sharing an email. -/
def dupEmailBody1 : ReqBody := ⟨.str "n1", .str "s@e", .num 1⟩

def dupEmailBody2 : ReqBody := ⟨.str "n2", .str "s@e", .num 2⟩

set_option maxRecDepth 4000 in
theorem c3_witness :
    postForm dupEmailBody2 (postForm dupEmailBody1 boot).state =
      ⟨500, none, (postForm dupEmailBody1 boot).state⟩ ∧
    (getAll (postForm dupEmailBody2 (postForm dupEmailBody1 boot).state).state).respRows =
      some (postForm dupEmailBody1 boot).state.rows :=
  c3_duplicate_rejected dupEmailBody1 dupEmailBody2 boot 1 2 (by decide) (by decide)
    (by decide) (by decide) rfl rfl (Or.inr rfl) (by decide)

set_option maxRecDepth 4000 in
/-- C4 as frozen is violated by the code: the age field 0); -- is not
an integer value, yet create-user succeeds with 200 and stores a row
with age 0 (the interpolated age text terminates the insert statement
itself and comments out the rest). -/
theorem c4_counterexample :
    (postForm ageInjBody boot).status = 200 ∧
    (postForm ageInjBody boot).state.rows = [⟨1, "n", "e", 0⟩] := by decide

/-- C4 (amended: quote-free name and email interpolations, and the age
interpolation restricted to a purely alphabetic text, the
representative non-integer shape that cannot alter the statement):
create-user fails with 500 and the store state is unchanged. -/
theorem c4_alpha_age (b : ReqBody) (st : DBState) (s : String)
    (hq1 : ∀ c ∈ b.name.interp.data, c ≠ sq)
    (hq2 : ∀ c ∈ b.email.interp.data, c ≠ sq)
    (hage : b.age = .str s) (halpha : ∀ c ∈ s.data, c.isAlpha = true) :
    postForm b st = ⟨500, none, st⟩ := by
  have hb : benign b := ⟨hq1, hq2, by rw [hage]; exact safeAge_alpha s.data halpha⟩
  have hparse : parseIntLit b.age.interp.data = none := by
    rw [hage]; exact parseIntLit_alpha s.data halpha
  rw [postForm_benign b st hb]
  simp only [hparse]

/-- A benign request whose age text is alphabetic. -/
def alphaAgeBody : ReqBody := ⟨.str "n", .str "e", .str "abc"⟩

theorem c4_witness : postForm alphaAgeBody boot = ⟨500, none, boot⟩ :=
  c4_alpha_age alphaAgeBody boot "abc" (by decide) (by decide) rfl (by decide)

set_option maxRecDepth 4000 in
/-- C5 as frozen is violated by the code: with the name field absent
the interpolation inserts the literal text undefined, the store
accepts it as a valid VARCHAR value, and the request succeeds with 200
instead of producing a store-level error. -/
theorem c5_counterexample :
    (postForm missingNameBody boot).status = 200 ∧
    (postForm missingNameBody boot).state.rows = [⟨1, "undefined", "e@e.com", 30⟩] := by
  decide

/-- C5 (amended: only an absent age field reaches the store as the bare
word undefined outside quotes, which is a store-level error; quote-free
name and email assumed): the request fails with 500 and the state is
unchanged. -/
theorem c5_missing_age (b : ReqBody) (st : DBState)
    (hq1 : ∀ c ∈ b.name.interp.data, c ≠ sq)
    (hq2 : ∀ c ∈ b.email.interp.data, c ≠ sq)
    (hage : b.age = .undef) :
    postForm b st = ⟨500, none, st⟩ := by
  have hund : ∀ c ∈ ("undefined" : String).data, c.isAlpha = true := by decide
  have hb : benign b := ⟨hq1, hq2, by rw [hage]; exact safeAge_alpha _ hund⟩
  have hparse : parseIntLit b.age.interp.data = none := by
    rw [hage]; exact parseIntLit_alpha _ hund
  rw [postForm_benign b st hb]
  simp only [hparse]

/-- A benign request missing its age field. -/
def missingAgeBody : ReqBody := ⟨.str "n", .str "e", .undef⟩

theorem c5_witness : postForm missingAgeBody boot = ⟨500, none, boot⟩ :=
  c5_missing_age missingAgeBody boot (by decide) (by decide) rfl

set_option maxRecDepth 8000 in
/-- C9 as frozen is violated by the code: from the reachable state
holding the alice row, the create-user request with the crafted name
succeeds (200) and afterwards the previously existing alice row is
gone (the injected DROP TABLE users deleted every row). -/
theorem c9_counterexample :
    (postForm aliceBody boot).state.rows = [⟨1, "alice", "alice@example.com", 30⟩] ∧
    (postForm craftedBody (postForm aliceBody boot).state).status = 200 ∧
    (⟨1, "alice", "alice@example.com", 30⟩ : Row) ∉
      (postForm craftedBody (postForm aliceBody boot).state).state.rows := by
  decide

/-- C9 (amended: create-user restricted to benign bodies, quote-free
name and email and safe age text): health check, list-users, and
benign create-user preserve every existing row, preserve the id
invariant, and never reuse an existing id for a new row. -/
theorem c9_frame (op : ServiceOp) (st : DBState) (hb : op.benignOp) (hwf : WF st) :
    (∀ r ∈ st.rows, r ∈ (op.applyOp st).rows) ∧ WF (op.applyOp st) ∧
    (∀ r ∈ (op.applyOp st).rows, r ∈ st.rows ∨ r.id ∉ st.rows.map Row.id) := by
  cases op with
  | health => exact ⟨fun r hr => hr, hwf, fun r hr => Or.inl hr⟩
  | listAll =>
    simp only [ServiceOp.applyOp, getAll_state]
    exact ⟨fun r hr => hr, hwf, fun r hr => Or.inl hr⟩
  | create b =>
    have hb2 : benign b := hb
    show (∀ r ∈ st.rows, r ∈ (postForm b st).state.rows) ∧ WF (postForm b st).state ∧
      (∀ r ∈ (postForm b st).state.rows, r ∈ st.rows ∨ r.id ∉ st.rows.map Row.id)
    have hch := postForm_benign b st hb2
    cases hv : parseIntLit b.age.interp.data with
    | none =>
      simp only [hv] at hch
      rw [hch]
      exact ⟨fun r hr => hr, hwf, fun r hr => Or.inl hr⟩
    | some v =>
      simp only [hv] at hch
      cases hcnd : (st.tableExists && st.rows.all (fun r => !(r.name == b.name.interp))
          && st.rows.all (fun r => !(r.email == b.email.interp)) && intInRange v
          && varcharOk b.name.interp && varcharOk b.email.interp) with
      | false =>
        rw [hcnd, if_neg (by simp)] at hch
        rw [hch]
        exact ⟨fun r hr => hr, hwf, fun r hr => Or.inl hr⟩
      | true =>
        rw [hcnd, if_pos rfl] at hch
        rw [hch]
        refine ⟨fun r hr => ?_, fun r hr => ?_, fun r hr => ?_⟩
        · exact List.mem_append.mpr (Or.inl hr)
        · show r.id < st.nextId + 1
          rcases List.mem_append.mp hr with h | h
          · have := hwf r h
            omega
          · simp at h
            subst h
            simp
        · rcases List.mem_append.mp hr with h | h
          · exact Or.inl h
          · simp at h
            subst h
            refine Or.inr ?_
            intro hmem
            rcases List.mem_map.mp hmem with ⟨r2, hr2, hid⟩
            have := hwf r2 hr2
            simp at hid
            omega

set_option maxRecDepth 4000 in
theorem c9_witness :
    (ServiceOp.create aliceBody).benignOp ∧ WF boot ∧
    ((∀ r ∈ boot.rows, r ∈ ((ServiceOp.create aliceBody).applyOp boot).rows) ∧
      WF ((ServiceOp.create aliceBody).applyOp boot) ∧
      (∀ r ∈ ((ServiceOp.create aliceBody).applyOp boot).rows,
        r ∈ boot.rows ∨ r.id ∉ boot.rows.map Row.id)) :=
  ⟨by show benign aliceBody; decide, by decide,
    c9_frame (ServiceOp.create aliceBody) boot (by show benign aliceBody; decide) (by decide)⟩

set_option maxRecDepth 4000 in
/-- C10 as frozen is violated by the code: the age field of this
request is the decimal digit string 30, yet the operation fails with
500 and stores nothing (its name contains a quote, corrupting the
statement), rather than succeeding. -/
theorem c10_counterexample :
    (postForm obDigitAgeBody boot).status = 500 ∧
    (postForm obDigitAgeBody boot).state.rows = [] := by decide

/-- C10 (amended: quote-free name and email interpolations fitting the
VARCHAR(255) columns, at most 255 characters and NUL-free, fresh name
and email, existing table, digit value within INT range): a digit
string age is accepted, the request succeeds, and the row is stored
with the corresponding integer age, so age need not arrive as a JSON
number. -/
theorem c10_digit_string_age (b : ReqBody) (st : DBState) (s : String)
    (hq1 : ∀ c ∈ b.name.interp.data, c ≠ sq)
    (hq2 : ∀ c ∈ b.email.interp.data, c ≠ sq)
    (hv1 : varcharOk b.name.interp = true)
    (hv2 : varcharOk b.email.interp = true)
    (hage : b.age = .str s)
    (hne : s.data ≠ []) (hdig : ∀ c ∈ s.data, c.isDigit = true)
    (hrange : intInRange ((digitsToNat s.data : Nat) : Int) = true)
    (htab : st.tableExists = true)
    (hn : ∀ r ∈ st.rows, r.name ≠ b.name.interp)
    (he : ∀ r ∈ st.rows, r.email ≠ b.email.interp) :
    postForm b st = ⟨200, some b,
      ⟨true, st.rows ++ [⟨st.nextId, b.name.interp, b.email.interp,
        ((digitsToNat s.data : Nat) : Int)⟩], st.nextId + 1⟩⟩ := by
  have hb : benign b := ⟨hq1, hq2, by rw [hage]; exact safeAge_digits s.data hdig⟩
  have hparse : parseIntLit b.age.interp.data = some ((digitsToNat s.data : Nat) : Int) := by
    rw [hage]; exact parseIntLit_digits s.data hne hdig
  have hall1 : st.rows.all (fun r => !(r.name == b.name.interp)) = true := by
    rw [List.all_eq_true]; intro r hr; simpa using hn r hr
  have hall2 : st.rows.all (fun r => !(r.email == b.email.interp)) = true := by
    rw [List.all_eq_true]; intro r hr; simpa using he r hr
  rw [postForm_benign b st hb]
  simp only [hparse, htab, hall1, hall2, hrange, hv1, hv2]
  simp

/-- A benign request whose age arrives as the digit string 30. -/
def digitAgeBody : ReqBody := ⟨.str "n", .str "e", .str "30"⟩

set_option maxRecDepth 4000 in
theorem c10_witness :
    postForm digitAgeBody boot = ⟨200, some digitAgeBody, ⟨true, [⟨1, "n", "e", 30⟩], 2⟩⟩ := by
  have h := c10_digit_string_age digitAgeBody boot "30" (by decide) (by decide)
    (by decide) (by decide) rfl
    (by decide) (by decide) (by decide) (by decide) (by decide) (by decide)
  rw [h]
  decide

end UserService
